import Mathlib

/-!
Verification of the easyAgents orchestration core against its specification.

Shallow embedding of: the Message envelope and agent-output normalization
(src/core/agent.py), the capability registry (src/core/agent.py AgentLoader,
src/core/plugin_manager.py), the MCP capability health gating
(src/core/agents/mcp_agent.py together with src/core/plugin_manager.py),
the synchronous and streaming turn loops (src/core/agent_manager.py), and
the raw-text Message extraction used in both loop modes.
-/

/-- Python values that flow through agent results and Message.data.
`vdict` models a dict as an association list (insertion order preserved,
as in Python). Floats are not needed by any claim and are omitted. -/
inductive PyVal : Type where
  | vnone : PyVal
  | vbool : Bool → PyVal
  | vint : Int → PyVal
  | vstr : String → PyVal
  | vlist : List PyVal → PyVal
  | vdict : List (String × PyVal) → PyVal

/-- The Python test `v is None`. -/
def PyVal.isNone : PyVal → Bool
  | .vnone => true
  | _ => false

/-- Python truthiness, as used by the `if data:` test in
normalize_agent_output (src/core/agent.py line 83). -/
def PyVal.truthy : PyVal → Bool
  | .vnone => false
  | .vbool b => b
  | .vint n => n != 0
  | .vstr s => s != ""
  | .vlist l => !l.isEmpty
  | .vdict d => !d.isEmpty

/-- The isinstance(result, (str, int, float, bool)) test of
normalize_agent_output (src/core/agent.py line 70). -/
def PyVal.isPrimitive : PyVal → Bool
  | .vbool _ => true
  | .vint _ => true
  | .vstr _ => true
  | _ => false

/-- str(result), as rendered into the informational message text of
normalize_agent_output (display-only; approximate for containers —
no claim inspects this text beyond scalar cases). -/
def PyVal.pyStr : PyVal → String
  | .vnone => "None"
  | .vbool true => "True"
  | .vbool false => "False"
  | .vint n => toString n
  | .vstr s => s
  | .vlist _ => "[...]"
  | .vdict _ => "\x7b...\x7d"

/-- The Message envelope (src/core/base_model.py Message): status is the
pydantic Literal "success" or "error"; data is the open-ended payload. -/
structure Msg where
  status : String
  task_list : List String
  data : Option PyVal
  next_agent : String
  agent_selection_reason : String
  message : Option String

/-- The possible returns of Agent.run (src/core/agent.py): a full Message,
or any other Python value (dict, None, scalar, other). -/
inductive AgentResult where
  | msg : Msg → AgentResult
  | val : PyVal → AgentResult

/-- src/core/agent.py normalize_agent_output (lines 18-94), translated
branch for branch: a Message passes through; a dict becomes data verbatim
with next_agent chosen by the is_complex test; None ends with empty data;
anything else is wrapped as a one-key result dict, ending for primitives.
The task_list is inherited when the input one is truthy (non-empty),
otherwise synthesized, with a second item appended when data is truthy. -/
def normalize_agent_output (result : AgentResult) (input_message : Msg)
    (agent_name : String) : Msg :=
  match result with
  | .msg m => m
  | .val v =>
    let dmn : Option PyVal × String × String :=
      match v with
      | .vdict d =>
          let has_content := d.any (fun kv => !kv.2.isNone)
          let is_complex := (d.length != 0) && has_content
          (some (.vdict d), s!"{agent_name}处理完成",
           if is_complex then "general_agent" else "none")
      | .vnone =>
          (none, s!"{agent_name}执行完成，无返回数据", "none")
      | _ =>
          let rendered := (v.pyStr).take 100
          (some (.vdict [("result", v)]), s!"{agent_name}返回: {rendered}",
           if v.isPrimitive then "none" else "general_agent")
    let data := dmn.1
    let message_str := dmn.2.1
    let next_agent := dmn.2.2
    let task_list :=
      if input_message.task_list.isEmpty then
        s!"{agent_name}执行任务" ::
          (if data.any PyVal.truthy then ["处理返回结果"] else [])
      else input_message.task_list
    ⟨"success", task_list, data, next_agent, s!"由{agent_name}处理",
     some message_str⟩

example :
    (normalize_agent_output (.val (.vint 4))
      ⟨"success", ["t"], none, "x", "r", none⟩ "calc").data
      = some (.vdict [("result", .vint 4)]) := rfl

example :
    (normalize_agent_output (.val (.vdict [("k", .vnone)]))
      ⟨"success", ["t"], none, "x", "r", none⟩ "a").next_agent = "none" := rfl

/-! ## Capability registry (src/core/agent.py Agent / AgentLoader,
src/core/plugin_manager.py pluginManager) -/

/-- The pydantic Agent record (src/core/agent.py class Agent), restricted to
its data fields, plus the `connection_error` instance attribute that
MCPAgent (src/core/agents/mcp_agent.py) carries for health-check reporting
(None for ordinary agents). The run behavior is modelled separately where
a loop needs it. -/
structure AgentRec where
  name : String
  description : String
  parameters : Option (List (String × String)) := none
  handles : List String
  is_active : Bool := true
  version : String := "1.0.0"
  connection_error : Option String := none

/-- The oracle-facing view of one active agent produced by
AgentLoader.to_json (src/core/agent.py lines 505-516). -/
structure AgentInfo where
  description : String
  handles : List String
  parameters : List (String × String)
deriving DecidableEq

/-- AgentLoader (src/core/agent.py lines 475-521): a name-keyed, insertion
ordered collection of agents, modelled as the list of records (the Python
dict is keyed by agent.name; lookup takes the first record with the name). -/
structure AgentLoader where
  agents : List AgentRec

/-- AgentLoader.add_agent: raises ValueError when the name exists, else
stores under agent.name. -/
def AgentLoader.add_agent (l : AgentLoader) (a : AgentRec) :
    Except String AgentLoader :=
  if l.agents.any (fun b => b.name == a.name) then
    .error s!"Agent {a.name} 已存在"
  else
    .ok ⟨l.agents ++ [a]⟩

/-- AgentLoader.get_agent: dict .get, i.e. the stored record or None. -/
def AgentLoader.get_agent (l : AgentLoader) (agent_name : String) :
    Option AgentRec :=
  l.agents.find? (fun a => a.name == agent_name)

/-- AgentLoader.get_active_agents: the sub-collection with is_active set. -/
def AgentLoader.get_active_agents (l : AgentLoader) : List AgentRec :=
  l.agents.filter (fun a => a.is_active)

/-- AgentLoader.to_json (src/core/agent.py lines 505-516): the listing of
active agents as name-to-view pairs; pluginManager.to_string is its fixed
json.dumps serialization and inherits this listing verbatim. -/
def AgentLoader.to_json (l : AgentLoader) : List (String × AgentInfo) :=
  l.get_active_agents.map
    (fun a => (a.name, ⟨a.description, a.handles, a.parameters.getD []⟩))

/-! ## MCP capability health gating (src/core/agents/mcp_agent.py MCPAgent,
src/core/plugin_manager.py pluginManager._load_single_mcp_agents) -/

/-- A Python call outcome: a returned value or a raised exception. -/
inductive PyOutcome (α : Type) where
  | ok : α → PyOutcome α
  | exn : String → PyOutcome α

/-- One entry of the mcp_configs list consumed by
pluginManager._load_single_mcp_agents (src/core/plugin_manager.py 81-120). -/
structure MCPConfig where
  name : String := "unknown"
  command : Option String := none
  url : Option String := none
  health_check : Bool := true

/-- The record MCPAgent._setup_inactive_agent (src/core/agents/mcp_agent.py
150-170) is written to produce: permanently deactivated, with the recorded
failure reason in the description and connection_error. (As executed the
method would itself fault on the same pre-init pydantic assignments as the
constructor, see below; this is the intended record the rest of
plugin_manager is coded against.) -/
def mcpInactiveRec (name ct : String) (err : Option String) : AgentRec :=
  { name := name
    description :=
      match err with
      | some e => s!"MCP Agent ({ct}) - 不可用: {e}"
      | none => s!"MCP Agent ({ct}) - 健康检查失败，已禁用"
    parameters := some []
    handles := []
    is_active := false
    version := "0.0.0"
    connection_error := err }

/-- The health-gating logic written into MCPAgent.__init__ and
_setup_inactive_agent (src/core/agents/mcp_agent.py 26-170) for the
registry-build call site (auto_connect=True) — the behavior the
constructor is written to have once past its attribute assignments, and
which pluginManager's add-even-if-inactive call site (plugin_manager.py
110-117) is coded against. The three I/O probes are abstracted as their
outcomes: envErr is the reason when _check_environment fails, connErr
when _check_connection fails, connectErr when the post-check connect or
list_tools raises; toolNames the listed tool set. -/
def mcpGatingIntent (cfg : MCPConfig) (envErr connErr connectErr : Option String)
    (toolNames : List String) : AgentRec :=
  let ct := if cfg.url.isSome then "sse" else "stdio"
  let connected : AgentRec :=
    let k := toolNames.length
    { name := cfg.name
      description :=
        if ct = "sse" then
          let u := (cfg.url.getD "")
          s!"MCP Agent ({ct})，连接到远端服务器 {u}，提供 {k} 个工具"
        else s!"MCP Agent ({ct})，提供 {k} 个工具"
      parameters := some [("tool_name", "要调用的工具名称"),
                          ("tool_arguments", "工具参数（JSON格式）")]
      handles := toolNames.take 5 ++ ["mcp_tool"]
      is_active := true
      version := "1.0.0"
      connection_error := none }
  let afterChecks : AgentRec :=
    match connectErr with
    | some e => mcpInactiveRec cfg.name ct (some e)
    | none => connected
  if cfg.health_check then
    match envErr with
    | some e => mcpInactiveRec cfg.name ct (some e)
    | none =>
      match connErr with
      | some e => mcpInactiveRec cfg.name ct (some e)
      | none => afterChecks
  else afterChecks

/-- The first statement of MCPAgent.__init__ (src/core/agents/mcp_agent.py
line 56): `self.name = name`, executed before super().__init__() on a
pydantic v2 BaseModel (the repo uses pydantic v2: model_dump,
pydantic_settings). Pydantic v2 attribute assignment needs per-instance
state that only __init__ fills, so the assignment raises AttributeError on
the uninitialized instance (and the following non-field assignments would
be rejected as well). This precedes the try at line 72 and every health
probe. -/
def pydanticPreInitSetattr : PyOutcome Unit := .exn "AttributeError"

/-- MCPAgent.__init__ modelled faithfully: its pre-init field assignment
raises before anything else runs, so the constructor never returns a
record; the written gating logic is reachable only behind that
assignment. -/
def MCPAgent_init (cfg : MCPConfig)
    (envErr connErr connectErr : Option String) (toolNames : List String) :
    PyOutcome AgentRec :=
  match pydanticPreInitSetattr with
  | .exn e => .exn e
  | .ok _ => .ok (mcpGatingIntent cfg envErr connErr connectErr toolNames)

/-- pluginManager._load_single_mcp_agents (src/core/plugin_manager.py
81-120): per config, skip when neither command nor url is given; call the
MCPAgent constructor — supplied as ctor, so the shipped constructor and
the written gating intent can both run through this same loader code; a
raise from the constructor, like one from add_agent on a duplicate name,
is caught by the except at lines 119-120 and the config skipped; a
returned agent is added whether or not it is active. -/
def load_single_mcp_agents (ctor : MCPConfig → PyOutcome AgentRec)
    (cfgs : List MCPConfig) (l : AgentLoader) : AgentLoader :=
  cfgs.foldl
    (fun acc cfg =>
      if cfg.command = none ∧ cfg.url = none then acc
      else
        match ctor cfg with
        | .exn _ => acc
        | .ok a =>
            match acc.add_agent a with
            | .ok l2 => l2
            | .error _ => acc)
    l

/-! ## Synchronous turn loop (src/core/agent_manager.py AgentManager._sync_call,
lines 78-188) -/

/-- The role of one entry of the context list assembled by the loop. -/
inductive Role where
  | user : Role
  | system : Role
  | error : Role
deriving DecidableEq

/-- The content field of a context entry. The user entry carries the query
text; a turn entry carries the task_list/data payload that _sync_call
serializes with json.dumps (the fixed serialization is kept structural
here); the error entry carries the failing agent's name. -/
inductive CtxContent where
  | userText : String → CtxContent
  | turnPayload : List String → Option PyVal → CtxContent
  | errorText : String → CtxContent

/-- One entry of the context list: the role/content/message triple built by
AgentManager.__user_message, __system_message and __error_message
(src/core/agent_manager.py 675-694). -/
structure CtxEntry where
  role : Role
  content : CtxContent
  message : Option String

/-- AgentManager.__user_message. -/
def userEntry (query : String) : CtxEntry :=
  ⟨.user, .userText query, none⟩

/-- AgentManager.__system_message applied to the turn payload
(task_list and data of the turn's Message) and the turn's message text. -/
def systemEntry (task_list : List String) (data : Option PyVal)
    (message : Option String) : CtxEntry :=
  ⟨.system, .turnPayload task_list data, message⟩

/-- AgentManager.__error_message: role error, fixed failure text naming the
agent, and the error details (str formatting renders None as "None"). -/
def errorEntry (agent_name : String) (msg : Option String) : CtxEntry :=
  ⟨.error, .errorText agent_name,
   some ("错误信息: " ++ msg.getD "None")⟩

/-- The start agent: START_AGENT_NAME defaults to "entrance_agent"
(src/config.py lines 65-68); AgentManager.start_agent is set from it. -/
def start_agent_name : String := "entrance_agent"

/-- The loop-local state of _sync_call: current agent name, assembled
context, remaining attempt counter, and whether res has been assigned
(the `res is None` half of the while condition). -/
structure SyncSt where
  agent_name : String
  context : List CtxEntry
  max_trys : Nat
  resSet : Bool

/-- The initial state of _sync_call (lines 88-103): history context plus
the user entry, full attempt budget, res = None. -/
def syncInit (maxTrys : Nat) (query : String) (history : List CtxEntry) :
    SyncSt :=
  ⟨start_agent_name, history ++ [userEntry query], maxTrys, false⟩

/-- The while-loop of _sync_call (src/core/agent_manager.py 109-158),
verified against the documented interface of _conversation (its docstring:
stream=False returns a Message object), supplied as the `conv` parameter
mapping the running context and agent name to a returned Message or a
raised exception. (The shipped _conversation cannot meet this interface —
see the faithful model below — so the loop is verified against the
interface its own code and docstrings assume.) On an exception the counter
decrements and, at zero, the error entry is appended and the context
returned; on a non-success status the error entry is appended and the
context returned; on success the turn entry is appended, the next agent is
installed and the counter resets to the full budget. The display-string
and context-manager bookkeeping (lines 126-145, 160-187) produce no
return-value effect and are omitted. Fuel bounds the number of
iterations; running out of fuel returns the context as-is (artifact). -/
def syncLoop (maxTrys : Nat)
    (conv : List CtxEntry → String → PyOutcome Msg) :
    Nat → SyncSt → PyOutcome (List CtxEntry)
  | 0, st => .ok st.context
  | fuel + 1, st =>
    if st.resSet ∧ st.agent_name = "none" then .ok st.context
    else
      match conv st.context st.agent_name with
      | .exn e =>
          let m := st.max_trys - 1
          if m = 0 then .ok (st.context ++ [errorEntry st.agent_name (some e)])
          else syncLoop maxTrys conv fuel { st with max_trys := m }
      | .ok res =>
          if res.status ≠ "success" then
            .ok (st.context ++ [errorEntry st.agent_name res.message])
          else
            syncLoop maxTrys conv fuel
              { agent_name := res.next_agent
                context := st.context ++
                  [systemEntry res.task_list res.data res.message]
                max_trys := maxTrys
                resSet := true }

/-! ### The shipped synchronous path, modelled faithfully.

_conversation (src/core/agent_manager.py 404-455) contains `yield`
statements (lines 427 and 436), which makes it a Python generator
function: calling it returns a generator object without executing any of
its body, for stream=False as much as for stream=True. The sync loop then
evaluates `res.status` on that generator object outside its try block
(line 121), raising AttributeError out of _sync_call. -/

/-- What `res = self._conversation(...)` can be bound to in _sync_call:
the generator object that the call in fact produces, or the Message that
the docstring promises (never produced by the shipped code). -/
inductive ConvRet where
  | generatorObj : ConvRet
  | msgObj : Msg → ConvRet

/-- Calling the shipped _conversation with stream=False: a generator
function call creates the generator and returns it without running the
body, so it never raises and never returns a Message. -/
def conversationSyncCall (_context : List CtxEntry) (_agent_name : String) :
    PyOutcome ConvRet :=
  .ok .generatorObj

/-- The attribute access `res.status` (line 121, outside the try block):
an AttributeError on a generator object, the Message otherwise. -/
def statusAttr : ConvRet → PyOutcome Msg
  | .generatorObj => .exn "AttributeError"
  | .msgObj m => .ok m

/-- The while-loop of _sync_call with the call to the shipped
_conversation modelled faithfully: the call itself is inside the try
(retry on exception), the `res.status` access is outside it, so an
AttributeError propagates out of _sync_call. -/
def syncLoopFaithful (maxTrys : Nat) :
    Nat → SyncSt → PyOutcome (List CtxEntry)
  | 0, st => .ok st.context
  | fuel + 1, st =>
    if st.resSet ∧ st.agent_name = "none" then .ok st.context
    else
      match conversationSyncCall st.context st.agent_name with
      | .exn e =>
          let m := st.max_trys - 1
          if m = 0 then .ok (st.context ++ [errorEntry st.agent_name (some e)])
          else syncLoopFaithful maxTrys fuel { st with max_trys := m }
      | .ok r =>
          match statusAttr r with
          | .exn e => .exn e
          | .ok res =>
              if res.status ≠ "success" then
                .ok (st.context ++ [errorEntry st.agent_name res.message])
              else
                syncLoopFaithful maxTrys fuel
                  { agent_name := res.next_agent
                    context := st.context ++
                      [systemEntry res.task_list res.data res.message]
                    max_trys := maxTrys
                    resSet := true }

/-- AgentManager._sync_call (self.max_trys = 3, src/core/agent_manager.py
line 43) on a fresh session, shipped code. -/
def sync_call (query : String) (fuel : Nat) : PyOutcome (List CtxEntry) :=
  syncLoopFaithful 3 fuel (syncInit 3 query [])

example : sync_call "2+2" 5 = .exn "AttributeError" := rfl

/-! ## Raw-text Message extraction.

The synchronous path (src/core/agent_manager.py 451-454) computes
content.split("<|message|>")[-1].split("``")[-1].strip(); the streaming
path (src/core/agent_manager.py 528-548) strips the text, extracts the
first fenced-block body when "```" occurs (dropping a leading json tag),
then keeps what follows the last "<|message|>" marker when one occurs.
Python strings are modelled as lists of characters, str.split as
left-to-right non-overlapping splitting, str.strip as trimming whitespace
on both sides. -/

/-- Worker for Python str.split: scan the text left to right; at each
match of the (non-empty) pattern emit the accumulated piece and restart
after the match. The fuel only bounds the scan (one unit per consumed
character); callers supply the text length. -/
def splitFuel (p : List Char) : Nat → List Char → List Char →
    List (List Char)
  | _, [], acc => [acc]
  | 0, s, acc => [acc ++ s]
  | fuel + 1, c :: rest, acc =>
      if p.isPrefixOf (c :: rest) then
        acc :: splitFuel p fuel (rest.drop (p.length - 1)) []
      else
        splitFuel p fuel rest (acc ++ [c])

/-- Python s.split(p) for non-empty p (the only use here): the list of
pieces between non-overlapping occurrences of p, empty pieces kept. -/
def pySplit (p s : List Char) : List (List Char) :=
  splitFuel p s.length s []

/-- Python's substring test `p in s`, for non-empty p: s splits into more
than one piece. -/
def pyContains (p s : List Char) : Bool :=
  (pySplit p s).length != 1

/-- Leading-whitespace trim (the left half of str.strip). -/
def ltrim (s : List Char) : List Char :=
  s.dropWhile Char.isWhitespace

/-- Trailing-whitespace trim (the right half of str.strip). -/
def rtrim (s : List Char) : List Char :=
  (s.reverse.dropWhile Char.isWhitespace).reverse

/-- Python str.strip(): whitespace removed from both ends. -/
def pyStrip (s : List Char) : List Char :=
  ltrim (rtrim s)

/-- The element at index -1 of a split result (split never returns an
empty list, so the default is never used). -/
def lastPart (l : List (List Char)) : List Char :=
  l.getLastD []

/-- The trailing marker token of the layered extraction. -/
def markerTok : List Char := "<|message|>".toList

/-- The fence token of the layered extraction. -/
def fenceTok : List Char := "```".toList

/-- The double-backtick token the synchronous path splits on. -/
def ddTok : List Char := "``".toList

/-- The fence-tag prefix stripped inside a fenced block. -/
def jsonTag : List Char := "json".toList

/-- The synchronous extraction (src/core/agent_manager.py 451-454):
content.split("<|message|>")[-1].split("``")[-1].strip(). -/
def syncExtract (content : List Char) : List Char :=
  pyStrip (lastPart (pySplit ddTok (lastPart (pySplit markerTok content))))

/-- The streaming extraction (src/core/agent_manager.py 528-548): strip;
when "```" occurs take the first fenced-block body (the piece at index 1,
which always exists then), strip it and drop a leading "json" tag; when
"<|message|>" occurs keep what follows its last occurrence, stripped. -/
def streamExtract (content : List Char) : List Char :=
  let json1 := pyStrip content
  let json2 :=
    if pyContains fenceTok json1 then
      let part := (pySplit fenceTok json1).getD 1 []
      let t := pyStrip part
      if jsonTag.isPrefixOf t then pyStrip (t.drop 4) else t
    else json1
  if pyContains markerTok json2 then pyStrip (lastPart (pySplit markerTok json2))
  else json2

/-- The wrapping of claim C2 / spec Scenario 3: the body fenced with a
leading json tag and the trailing marker token placed before it. -/
def wrapOracle (body : List Char) : List Char :=
  "```json\n<|message|>".toList ++ body ++ "\n```".toList

example : pySplit "aa".toList "aaa".toList = ["".toList, "a".toList] := rfl
example : pySplit "ab".toList "abab".toList = [[], [], []] := rfl
example : pySplit "b".toList "ab".toList = ["a".toList, []] := rfl
example : pySplit "x".toList [] = [[]] := rfl

example :
    syncExtract (wrapOracle "x".toList) = "`".toList := rfl
example :
    syncExtract "x".toList = "x".toList := rfl
example :
    streamExtract (wrapOracle " x y ".toList) = "x y".toList := rfl
example :
    streamExtract " x y ".toList = "x y".toList := rfl

/-! ## Streaming turn loop (src/core/agent_manager.py AgentManager._stream_call
lines 190-402, AgentManager._stream_llm_call lines 457-604) -/

/-- One recorded thinking step (agent name, selection reason, first
remaining task), as collected by the loop for non-entrance, non-general
agents. -/
structure ThinkStep where
  agent_name : String
  reason : String
  task : Option String

/-- The typed streaming events the engine yields, with the payload fields
the claims inspect. metaInit/metaEnd are the loop-start and loop-end
metadata events; metaDur is the duration metadata of one LLM call. -/
inductive Event where
  | metaInit : String → String → Bool → Event
  | metaEnd : Event
  | pause : List CtxEntry → List ThinkStep → Event
  | agentStart : String → String → Event
  | delta : String → String → Option String → Bool → Event
  | metaDur : String → Event
  | message : String → Msg → Event
  | agentEnd : String → String → String → String → List String → Event
  | error : String → String → Option Bool → Event

/-- What one oracle round trip produces for the streaming path: the chunk
contents plus the finish reason, or a raised exception (e.g. the
completions call failing). -/
inductive LLMResult where
  | chunks : List String → Option String → LLMResult
  | raises : String → LLMResult

/-- An entry of the live registry as the streaming loop consumes it:
description (for agent_start), is_active, and the composed
`agent(message)` transform (run plus normalize_agent_output, per
Agent.__call__, src/core/agent.py 223-254). -/
structure AgentEntry where
  descr : String
  is_active : Bool
  call : Msg → Msg

/-- The error-to-Message conversion of the stream loop (lines 291-298):
on a forwarded error event, res becomes a declared-error Message built
from the event's error text. -/
def errorResultMsg (emsg : String) : Msg :=
  ⟨"error", [], none, "none", "错误", some emsg⟩

/-- AgentManager._stream_llm_call (lines 457-604), with the json.loads ∘
Message(**·) step abstracted as the parse parameter over the extracted
text: each non-empty chunk yields a delta event (tagged final for
general_agent), a finish reason yields a closing delta; the assembled
content goes through streamExtract; a parse failure yields an error event
(the code's JSONDecodeError handler); otherwise the agent transform runs
and a duration-metadata event plus the message event are yielded. An
exception from the completions call is caught by the catch-all handler
and yielded as an error event with recoverable=False. -/
def streamLLMCall (parse : List Char → Option Msg) (call : Msg → Msg)
    (agent_name : String) : LLMResult → List Event
  | .raises e => [.error agent_name e (some false)]
  | .chunks cs finish =>
      let isFinal := agent_name == "general_agent"
      let pieces := cs.filter (fun c => c ≠ "")
      let deltas := pieces.map (fun c => Event.delta agent_name c none isFinal)
        ++ (match finish with
            | some f => [Event.delta agent_name "" (some f) isFinal]
            | none => [])
      let complete := String.join pieces
      match parse (streamExtract complete.toList) with
      | none => deltas ++ [.error agent_name "JSONDecodeError" none]
      | some m =>
          deltas ++ [.metaDur agent_name, .message agent_name (call m)]

/-- The streaming branch of _conversation (lines 404-441): a missing or
inactive non-entrance agent yields a single error event; otherwise the
events of _stream_llm_call. (The missing-agent KeyError of line 422 is
raised before this generator runs and is handled by the caller.) -/
def streamConv (parse : List Char → Option Msg)
    (agents : String → Option AgentEntry) (agent_name : String)
    (r : LLMResult) : List Event :=
  match agents agent_name with
  | none => []
  | some ag =>
      if agent_name ≠ "entrance_agent" ∧ ¬ag.is_active then
        [.error agent_name s!"Agent {agent_name} 不存在或未激活。" none]
      else streamLLMCall parse ag.call agent_name r

/-- The inner for-loop of _stream_call (lines 270-299): delta and metadata
events are forwarded; a message event is captured into res (last one
wins) and not forwarded; an error event is forwarded, turns res into the
declared-error Message and stops the iteration. Returns the forwarded
events and the final res. -/
def consumeEvents : List Event → List Event × Option Msg
  | [] => ([], none)
  | e :: rest =>
      match e with
      | .message _ m =>
          let (es, r) := consumeEvents rest
          (es, some (r.getD m))
      | .error _ emsg _ => ([e], some (errorResultMsg emsg))
      | _ =>
          let (es, r) := consumeEvents rest
          (e :: es, r)

/-- The loop-local state of _stream_call. -/
structure StreamSt where
  agent_name : String
  context : List CtxEntry
  max_trys : Nat
  thinking : List ThinkStep

/-- One iteration of the while-True loop of _stream_call (lines 230-374):
the events it yields and the state for the next iteration (none = the
loop ends). Pause sentinel: a pause event carrying the context and agent
history, then stop. Terminal sentinel: the end-metadata event, then stop.
Missing agent: the KeyError from the agent_start construction is caught
by the except branch, yielding an error event (recoverable=True) and
decrementing the counter, ending the loop at zero. Otherwise: agent_start,
the forwarded conversation events, then — when a res was captured — the
agent_end and message events; a non-success status ends the loop with no
retry, a success appends the turn entry, installs next_agent and resets
the counter; a missing res is the raised "未收到完整响应", handled like
an exception. -/
def streamStep (maxTrys : Nat) (parse : List Char → Option Msg)
    (agents : String → Option AgentEntry)
    (oracle : List CtxEntry → String → LLMResult) (st : StreamSt) :
    List Event × Option StreamSt :=
  if st.agent_name = "wait_for_user_input" then
    ([.pause st.context st.thinking], none)
  else if st.agent_name = "none" then
    ([.metaEnd], none)
  else
    match agents st.agent_name with
    | none =>
        let evs := [Event.error st.agent_name "KeyError" (some true)]
        if st.max_trys - 1 = 0 then (evs, none)
        else (evs, some { st with max_trys := st.max_trys - 1 })
    | some ag =>
        let inner := streamConv parse agents st.agent_name
          (oracle st.context st.agent_name)
        let fr := consumeEvents inner
        match fr.2 with
        | none =>
            let evs := Event.agentStart st.agent_name ag.descr :: fr.1
              ++ [.error st.agent_name "未收到完整响应" (some true)]
            if st.max_trys - 1 = 0 then (evs, none)
            else (evs, some { st with max_trys := st.max_trys - 1 })
        | some res =>
            let thinking :=
              if st.agent_name ≠ "entrance_agent" ∧
                  st.agent_name ≠ "general_agent" then
                st.thinking ++
                  [⟨st.agent_name, res.agent_selection_reason,
                    res.task_list.head?⟩]
              else st.thinking
            let evs := Event.agentStart st.agent_name ag.descr :: fr.1
              ++ [.agentEnd st.agent_name res.status res.next_agent
                    res.agent_selection_reason res.task_list,
                  .message st.agent_name res]
            if res.status ≠ "success" then (evs, none)
            else
              (evs, some { agent_name := res.next_agent
                           context := st.context ++
                             [systemEntry res.task_list res.data res.message]
                           max_trys := maxTrys
                           thinking := thinking })

/-- The while-True loop of _stream_call as the list of all events it
yields, bounded by fuel (the loop need not terminate for an arbitrary
oracle; running out of fuel ends the list, an artifact). -/
def streamLoop (maxTrys : Nat) (parse : List Char → Option Msg)
    (agents : String → Option AgentEntry)
    (oracle : List CtxEntry → String → LLMResult) :
    Nat → StreamSt → List Event
  | 0, _ => []
  | fuel + 1, st =>
      let ec := streamStep maxTrys parse agents oracle st
      ec.1 ++ (match ec.2 with
               | some st2 => streamLoop maxTrys parse agents oracle fuel st2
               | none => [])

/-- AgentManager._stream_call (lines 190-402) on a query with history:
the initial metadata event, then the loop from the start agent with the
history-plus-user context and the full budget (self.max_trys = 3 at the
call site; kept as a parameter). The post-loop context-manager save
(lines 376-402) yields nothing and is omitted. -/
def stream_call (maxTrys : Nat) (parse : List Char → Option Msg)
    (agents : String → Option AgentEntry)
    (oracle : List CtxEntry → String → LLMResult) (fuel : Nat)
    (query : String) (history : List CtxEntry) : List Event :=
  .metaInit query start_agent_name (history.length > 0) ::
    streamLoop maxTrys parse agents oracle fuel
      ⟨start_agent_name, history ++ [userEntry query], maxTrys, []⟩

/-! ## Claims about normalization (C3, C4, C10) -/

/-- C3, as stated, is false: the dict [("k", None)] is a non-empty
dictionary, yet normalization routes it to the terminal sentinel "none"
(has_content is False since every value is None), not to the fallback
capability. -/
theorem c3_counterexample :
    (normalize_agent_output (.val (.vdict [("k", .vnone)]))
        ⟨"success", ["t"], none, "x", "r", none⟩ "sql_agent").next_agent
      = "none"
    ∧ "none" ≠ "general_agent" :=
  ⟨rfl, by decide⟩

/-- C3 amended: for every non-empty dictionary with at least one non-None
value, normalization copies the dictionary verbatim into data and routes
to the fallback capability "general_agent". -/
theorem c3_dict_roundtrip (d : List (String × PyVal)) (input : Msg)
    (name : String) (hne : d ≠ [])
    (hc : ∃ kv ∈ d, kv.2.isNone = false) :
    (normalize_agent_output (.val (.vdict d)) input name).data
        = some (.vdict d)
    ∧ (normalize_agent_output (.val (.vdict d)) input name).next_agent
        = "general_agent" := by
  obtain ⟨kv, hkv, hkvn⟩ := hc
  have hlen : (d.length != 0) = true := by
    simp [List.length_eq_zero, hne]
  have hany : d.any (fun kv => !kv.2.isNone) = true :=
    List.any_eq_true.mpr ⟨kv, hkv, by simp [hkvn]⟩
  constructor <;> simp [normalize_agent_output, hlen, hany]

/-- Witness for the amended C3 at a concrete dictionary. -/
theorem c3_witness :
    (normalize_agent_output (.val (.vdict [("rows", .vint 1)]))
        ⟨"success", ["t"], none, "x", "r", none⟩ "sql_agent").data
      = some (.vdict [("rows", .vint 1)])
    ∧ (normalize_agent_output (.val (.vdict [("rows", .vint 1)]))
        ⟨"success", ["t"], none, "x", "r", none⟩ "sql_agent").next_agent
      = "general_agent" :=
  c3_dict_roundtrip [("rows", .vint 1)] ⟨"success", ["t"], none, "x", "r", none⟩
    "sql_agent" (by simp) ⟨("rows", .vint 1), by simp, rfl⟩

/-- C4, as stated, is false: for the dict result [("a", 1)] and an input
Message with an empty task_list, the synthesized task_list is not a
one-item list naming the capability's action — a second item is appended
because data is non-empty. -/
theorem c4_counterexample :
    ¬ ∃ item, (normalize_agent_output (.val (.vdict [("a", .vint 1)]))
        ⟨"success", [], none, "x", "r", none⟩ "demo").task_list = [item] := by
  rintro ⟨item, h⟩
  have h2 : (normalize_agent_output (.val (.vdict [("a", .vint 1)]))
      ⟨"success", [], none, "x", "r", none⟩ "demo").task_list
      = ["demo执行任务", "处理返回结果"] := rfl
  rw [h2] at h
  simp at h

/-- C4 amended: for every non-Message capability result, the normalized
task_list equals the input one when that is non-empty; otherwise it is
synthesized with a first item naming the capability's action and a second
fixed item appended exactly when the normalized data is non-empty
(truthy). (A result that is already a Message passes through unchanged,
task_list included.) -/
theorem c4_task_list (v : PyVal) (input : Msg) (name : String) :
    (input.task_list ≠ [] →
      (normalize_agent_output (.val v) input name).task_list
        = input.task_list)
    ∧ (input.task_list = [] →
      (normalize_agent_output (.val v) input name).task_list
        = s!"{name}执行任务" ::
          (if (normalize_agent_output (.val v) input name).data.any
              PyVal.truthy then ["处理返回结果"] else [])) := by
  constructor <;> intro h <;>
    simp [normalize_agent_output, h, List.isEmpty_iff]

/-- Witness for the amended C4 at concrete inputs (both halves). -/
theorem c4_witness :
    (normalize_agent_output (.val (.vint 4))
        ⟨"success", ["t"], none, "x", "r", none⟩ "calc").task_list = ["t"]
    ∧ (normalize_agent_output (.val (.vint 4))
        ⟨"success", [], none, "x", "r", none⟩ "calc").task_list
      = ["calc执行任务", "处理返回结果"] := by
  constructor
  · exact (c4_task_list (.vint 4) ⟨"success", ["t"], none, "x", "r", none⟩
      "calc").1 (by simp)
  · have h := (c4_task_list (.vint 4) ⟨"success", [], none, "x", "r", none⟩
      "calc").2 rfl
    simpa using h

/-- C10: every non-Message capability result — dict, None, scalar, or any
other value — normalizes to a Message with status "success"; so
normalization never produces status "error" and a capability can declare
failure only by returning a full Message itself. -/
theorem c10_status_success (v : PyVal) (input : Msg) (name : String) :
    (normalize_agent_output (.val v) input name).status = "success" := by
  cases v <;> rfl

/-! ## Claim about the registry listing (C8) -/

/-- C8: the listing is deterministic (a pure function of the registry
state, so two calls with no intervening mutation agree) and contains
exactly the name-view pairs of the agents whose is_active flag is true —
in particular an inactive record (such as the entrance capability, which
src/core/agents/entrance_agent.py constructs with is_active = False)
never contributes an entry. -/
theorem c8_listing (l : AgentLoader) (n : String) (info : AgentInfo) :
    l.to_json = l.to_json
    ∧ ((n, info) ∈ l.to_json ↔
        ∃ a ∈ l.agents, a.is_active = true ∧ a.name = n
          ∧ info = ⟨a.description, a.handles, a.parameters.getD []⟩) := by
  refine ⟨rfl, ?_⟩
  simp only [AgentLoader.to_json, AgentLoader.get_active_agents,
    List.mem_map, List.mem_filter, Prod.mk.injEq]
  constructor
  · rintro ⟨a, ⟨ha, hact⟩, hn, hinfo⟩
    exact ⟨a, ha, hact, hn, hinfo.symm⟩
  · rintro ⟨a, ha, hact, hn, hinfo⟩
    exact ⟨a, ⟨ha, hact⟩, hn, hinfo.symm⟩
/-! ## Claim about provider health gating (C9) -/

set_option maxRecDepth 4000 in
/-- C9: the claim describes the intended design, but the shipped
constructor is a slip. First conjunct: MCPAgent's constructor raises
AttributeError at its first statement, before any environment or
connection probe runs. Second conjunct: the registry build still
completes without raising — the except in _load_single_mcp_agents absorbs
the error — but only by skipping the config, so NO capability is added
and no failure reason is recorded anywhere. Third to fifth conjuncts: run
through the same loader code with the constructor's written gating logic
(the intent), the failed provider IS added, inactive, with the reason
recorded in connection_error and in the description — exactly what the
claim and the add-even-if-inactive call site expect. -/
theorem c9_provider_crash :
    MCPAgent_init { name := "fs", command := some "npx" }
        (some "命令不可用") none none [] = .exn "AttributeError"
    ∧ (load_single_mcp_agents
        (fun cfg => MCPAgent_init cfg (some "命令不可用") none none [])
        [{ name := "fs", command := some "npx" }] ⟨[]⟩).agents = []
    ∧ (load_single_mcp_agents
        (fun cfg => .ok (mcpGatingIntent cfg (some "命令不可用") none none []))
        [{ name := "fs", command := some "npx" }] ⟨[]⟩).get_agent "fs"
      = some (mcpInactiveRec "fs" "stdio" (some "命令不可用"))
    ∧ (mcpInactiveRec "fs" "stdio" (some "命令不可用")).is_active = false
    ∧ (mcpInactiveRec "fs" "stdio" (some "命令不可用")).connection_error
        = some "命令不可用" :=
  ⟨rfl, rfl, rfl, rfl, rfl⟩

/-! ## Claims about the synchronous loop (C1, C5) -/

/-- The Message the oracle produces on the entrance turn of spec
Scenario 1: one decomposed task, the calculator capability selected.
EntranceAgent.run returns its input unchanged
(src/core/agents/entrance_agent.py), so Agent.__call__ is
normalize_agent_output applied to the Message itself. -/
def entranceTurnMsg : Msg :=
  ⟨"success", ["计算 2+2"], none, "calculator_agent", "需要计算",
   some "已分配任务"⟩

/-- The Message the oracle produces on the calculator turn. -/
def calcTurnMsg : Msg :=
  ⟨"success", ["计算 2+2"], some (.vdict [("expression", .vstr "2+2")]),
   "general_agent", "计算完成", some "计算"⟩

/-- Scenario 1 of the spec against the documented interface of
_conversation: the entrance turn passes the oracle Message through its
run, the calculator turn runs a capability whose run returns the scalar
4; both results go through normalize_agent_output as Agent.__call__
does. -/
def convScenario1 (_ctx : List CtxEntry) (agent_name : String) :
    PyOutcome Msg :=
  if agent_name = "entrance_agent" then
    .ok (normalize_agent_output (.msg entranceTurnMsg) entranceTurnMsg
      "entrance_agent")
  else if agent_name = "calculator_agent" then
    .ok (normalize_agent_output (.val (.vint 4)) calcTurnMsg
      "calculator_agent")
  else .exn "KeyError"

set_option maxRecDepth 8000 in
/-- C1: the shipped synchronous path does not run to completion — because
_conversation contains yield statements it is a generator function, so
`res.status` is evaluated on a generator object outside the try block and
an AttributeError escapes _sync_call on the first turn (first conjunct).
Under the interface _sync_call's own code assumes (a Message from each
turn), Scenario 1 normalizes the calculator's scalar 4 to
data = \x7bresult: 4\x7d with the terminal sentinel, and the loop returns a
THREE-entry trace — the user entry plus one system entry per turn, with
no error entry — not the two-entry trace the claim states (second and
third conjuncts). -/
theorem c1_sync_scenario :
    sync_call "2+2" 5 = .exn "AttributeError"
    ∧ syncLoop 3 convScenario1 5 (syncInit 3 "2+2" [])
        = .ok [userEntry "2+2",
               systemEntry ["计算 2+2"] none (some "已分配任务"),
               systemEntry ["计算 2+2"] (some (.vdict [("result", .vint 4)]))
                 (some "calculator_agent返回: 4")]
    ∧ (normalize_agent_output (.val (.vint 4)) calcTurnMsg
        "calculator_agent").next_agent = "none" :=
  ⟨rfl, rfl, rfl⟩

/-- An oracle stub that raises on every call (the C5 experiment). -/
def failingOracle : List CtxEntry → String → LLMResult :=
  fun _ _ => .raises "oracle故障"

/-- The entrance capability's description
(src/core/agents/entrance_agent.py). -/
def entranceDescr : String := "负责解析用户请求并分配给最合适的专业Agent"

/-- A registry holding only the built-in entrance capability (inactive, as
EntranceAgent constructs itself; its run returns the input Message, so
its composed call is normalize_agent_output on the Message). -/
def scenarioAgents : String → Option AgentEntry := fun n =>
  if n = "entrance_agent" then
    some ⟨entranceDescr, false,
      fun m => normalize_agent_output (.msg m) m "entrance_agent"⟩
  else none

/-- A parse function that always fails (never reached in the C5 run). -/
def noParse : List Char → Option Msg := fun _ => none

set_option maxRecDepth 8000 in
/-- C5: with an oracle that raises on every call and the default budget 3,
neither mode performs 3 attempts. Streaming (first conjunct): the raise is
caught inside _stream_llm_call after ONE attempt and surfaces as an error
event plus a declared-error Message that ends the loop — exactly one
agent_start, no retry of that turn. Shipped synchronous path (second
conjunct): the AttributeError of the generator-function slip escapes on
the first turn, so the retry code never runs and the fault is unhandled.
The loop code in isolation (the documented _conversation interface) does
implement the claimed policy: with fuel for exactly three iterations the
always-raising call exhausts the budget and appends the error entry
(third conjunct), while two iterations do not reach it (fourth). -/
theorem c5_retry_divergence :
    stream_call 3 noParse scenarioAgents failingOracle 10 "2+2" []
      = [.metaInit "2+2" "entrance_agent" false,
         .agentStart "entrance_agent" entranceDescr,
         .error "entrance_agent" "oracle故障" (some false),
         .agentEnd "entrance_agent" "error" "none" "错误" [],
         .message "entrance_agent" (errorResultMsg "oracle故障")]
    ∧ sync_call "2+2" 5 = .exn "AttributeError"
    ∧ syncLoop 3 (fun _ _ => .exn "oracle故障") 3 (syncInit 3 "2+2" [])
        = .ok [userEntry "2+2", errorEntry "entrance_agent" (some "oracle故障")]
    ∧ syncLoop 3 (fun _ _ => .exn "oracle故障") 2 (syncInit 3 "2+2" [])
        = .ok [userEntry "2+2"] :=
  ⟨rfl, rfl, rfl, rfl⟩

/-! ## Claim about declared failures (C6) -/

/-- C6: a turn whose extracted Message carries a non-success status ends
the loop at once in both engines. Streaming (first conjunct): whatever
fuel remains and whatever the attempt budget is, the loop's whole output
is exactly that turn's events (agent_start, the forwarded conversation
events, agent_end, message) — no further capability starts and the
counter plays no role, so nothing is retried or decremented. Synchronous
loop against the documented _conversation interface (second conjunct):
the context with the appended error entry is returned at once,
independently of the remaining fuel and of the attempt budget. -/
theorem c6_declared_error_ends_loop
    (maxTrys : Nat) (parse : List Char → Option Msg)
    (agents : String → Option AgentEntry)
    (oracle : List CtxEntry → String → LLMResult)
    (st : StreamSt) (ag : AgentEntry) (fwd : List Event) (res : Msg)
    (h1 : st.agent_name ≠ "wait_for_user_input")
    (h2 : st.agent_name ≠ "none")
    (hag : agents st.agent_name = some ag)
    (hres : consumeEvents (streamConv parse agents st.agent_name
              (oracle st.context st.agent_name)) = (fwd, some res))
    (herr : res.status ≠ "success")
    (conv : List CtxEntry → String → PyOutcome Msg) (sst : SyncSt)
    (sres : Msg)
    (hs1 : ¬(sst.resSet ∧ sst.agent_name = "none"))
    (hs2 : conv sst.context sst.agent_name = .ok sres)
    (hserr : sres.status ≠ "success") :
    (∀ fuel budget,
        streamLoop maxTrys parse agents oracle (fuel + 1)
            { st with max_trys := budget }
          = Event.agentStart st.agent_name ag.descr :: fwd
            ++ [.agentEnd st.agent_name res.status res.next_agent
                  res.agent_selection_reason res.task_list,
                .message st.agent_name res])
    ∧ (∀ fuel budget,
        syncLoop maxTrys conv (fuel + 1) { sst with max_trys := budget }
          = .ok (sst.context ++ [errorEntry sst.agent_name sres.message])) := by
  constructor
  · intro fuel budget
    simp only [streamLoop, streamStep, h1, h2, hag, hres, herr,
      if_neg, if_false]
    simp [h1, h2, herr]
  · intro fuel budget
    simp only [syncLoop]
    rw [if_neg (by simpa using hs1), hs2]
    simp [hserr]

/-- The concrete declared-error Message for the C6 witness. -/
def declaredErr : Msg := ⟨"error", [], none, "none", "失败", some "bad"⟩

/-- A parse function that yields the declared-error Message. -/
def errParse : List Char → Option Msg := fun _ => some declaredErr

/-- A one-capability registry for the C6 witness. -/
def oneAgent : String → Option AgentEntry := fun n =>
  if n = "a" then some ⟨"d", true, fun m => m⟩ else none

/-- A streaming oracle producing one chunk and no finish marker. -/
def oneChunkOracle : List CtxEntry → String → LLMResult :=
  fun _ _ => .chunks ["x"] none

/-- Witness for C6: at a concrete turn whose Message has status "error",
the streaming loop with untouched budget 7 and plenty of fuel emits
exactly the turn's events, and the synchronous loop returns the context
plus the error entry. -/
theorem c6_witness :
    streamLoop 3 errParse oneAgent oneChunkOracle 6
        ⟨"a", [userEntry "q"], 7, []⟩
      = [.agentStart "a" "d", .delta "a" "x" none false, .metaDur "a",
         .agentEnd "a" "error" "none" "失败" [],
         .message "a" declaredErr]
    ∧ syncLoop 3 (fun _ _ => .ok declaredErr) 6
        ⟨"a", [userEntry "q"], 7, false⟩
      = .ok [userEntry "q", errorEntry "a" (some "bad")] := by
  have h := c6_declared_error_ends_loop 3 errParse oneAgent oneChunkOracle
    ⟨"a", [userEntry "q"], 0, []⟩ ⟨"d", true, fun m => m⟩
    [.delta "a" "x" none false, .metaDur "a"] declaredErr
    (by decide) (by decide) rfl rfl (by decide)
    (fun _ _ => .ok declaredErr) ⟨"a", [userEntry "q"], 0, false⟩ declaredErr
    (by decide) rfl (by decide)
  exact ⟨h.1 5 7, h.2 5 7⟩

/-! ## Claim about pause behavior (C7) -/

/-- Is this event a pause event? -/
def Event.isPause : Event → Bool
  | .pause _ _ => true
  | _ => false

/-- The C7 shape predicate: any pause event in the list is followed by
nothing. -/
def pauseOk : List Event → Prop
  | [] => True
  | e :: rest => if e.isPause then rest = [] else pauseOk rest

theorem pauseOk_append {l₁ l₂ : List Event}
    (h₁ : ∀ e ∈ l₁, e.isPause = false) (h₂ : pauseOk l₂) :
    pauseOk (l₁ ++ l₂) := by
  induction l₁ with
  | nil => simpa using h₂
  | cons e t ih =>
      have he : e.isPause = false := h₁ e (List.mem_cons_self e t)
      simp only [List.cons_append, pauseOk, he, Bool.false_eq_true,
        if_false]
      exact ih fun x hx => h₁ x (List.mem_cons_of_mem e hx)

/-- The per-call event stream of _stream_llm_call never contains a pause
event. -/
theorem streamLLMCall_no_pause (parse : List Char → Option Msg)
    (call : Msg → Msg) (n : String) (r : LLMResult) :
    ∀ e ∈ streamLLMCall parse call n r, e.isPause = false := by
  intro e he
  cases r with
  | raises s =>
      simp only [streamLLMCall, List.mem_singleton] at he
      subst he; rfl
  | chunks cs f =>
      simp only [streamLLMCall] at he
      split at he <;>
      · rcases List.mem_append.mp he with h | h
        · rcases List.mem_append.mp h with h' | h'
          · obtain ⟨c, _, rfl⟩ := List.mem_map.mp h'
            rfl
          · cases f with
            | none => simp at h'
            | some ff =>
                simp only [List.mem_singleton] at h'
                subst h'; rfl
        · simp only [List.mem_singleton, List.mem_cons,
            List.not_mem_nil, or_false] at h
          first
            | (subst h; rfl)
            | (rcases h with h | h <;> (subst h; rfl))

/-- The streaming branch of _conversation never yields a pause event. -/
theorem streamConv_no_pause (parse : List Char → Option Msg)
    (agents : String → Option AgentEntry) (n : String) (r : LLMResult) :
    ∀ e ∈ streamConv parse agents n r, e.isPause = false := by
  intro e he
  unfold streamConv at he
  split at he
  · simp at he
  · split at he
    · simp only [List.mem_singleton] at he
      subst he; rfl
    · exact streamLLMCall_no_pause _ _ _ _ e he

/-- The events the inner for-loop forwards are events of its input. -/
theorem consumeEvents_fst_subset (l : List Event) :
    ∀ e ∈ (consumeEvents l).1, e ∈ l := by
  induction l with
  | nil => intro e he; simp [consumeEvents] at he
  | cons x t ih =>
      rcases hct : consumeEvents t with ⟨es, r⟩
      rw [hct] at ih
      intro e he
      cases x <;> simp only [consumeEvents, hct] at he <;>
        first
          | (rcases List.mem_cons.mp he with rfl | hm
             · exact List.mem_cons_self _ _
             · exact List.mem_cons_of_mem _ (ih e hm))
          | exact List.mem_cons_of_mem _ (ih e he)
          | (simp only [List.mem_singleton] at he
             subst he
             exact List.mem_cons_self _ _)

/-- A non-pause head preserves the C7 shape. -/
theorem pauseOk_cons_of (x : Event) (l : List Event)
    (hx : x.isPause = false) (h : pauseOk l) : pauseOk (x :: l) := by
  simp [pauseOk, hx, h]

/-- Every event list the streaming loop produces satisfies the C7 shape:
once a pause event is emitted, nothing follows it. -/
theorem streamLoop_pauseOk (maxTrys : Nat) (parse : List Char → Option Msg)
    (agents : String → Option AgentEntry)
    (oracle : List CtxEntry → String → LLMResult) :
    ∀ fuel st, pauseOk (streamLoop maxTrys parse agents oracle fuel st) := by
  intro fuel
  induction fuel with
  | zero => intro st; simp [streamLoop, pauseOk]
  | succ n ih =>
      intro st
      simp only [streamLoop]
      by_cases hw : st.agent_name = "wait_for_user_input"
      · simp [streamStep, hw, pauseOk, Event.isPause]
      · by_cases hn : st.agent_name = "none"
        · simp [streamStep, hw, hn, pauseOk, Event.isPause]
        · rcases hag : agents st.agent_name with _ | ag
          · simp only [streamStep, if_neg hw, if_neg hn, hag]
            by_cases hz : st.max_trys - 1 = 0 <;>
              · simp only [hz, reduceIte, ite_true, ite_false]
                refine pauseOk_cons_of _ _ rfl ?_
                first
                  | simpa using ih _
                  | simp [pauseOk]
          · rcases hfr : consumeEvents (streamConv parse agents
                st.agent_name (oracle st.context st.agent_name))
              with ⟨fwd, resO⟩
            have hfwd : ∀ e ∈ fwd, e.isPause = false := by
              intro e he
              refine streamConv_no_pause parse agents st.agent_name
                (oracle st.context st.agent_name) e ?_
              have hsub := consumeEvents_fst_subset
                (streamConv parse agents st.agent_name
                  (oracle st.context st.agent_name)) e
              rw [hfr] at hsub
              exact hsub he
            simp only [streamStep, if_neg hw, if_neg hn, hag, hfr]
            rcases resO with _ | res
            · by_cases hz : st.max_trys - 1 = 0 <;>
                · simp only [hz, reduceIte, ite_true, ite_false,
                    List.cons_append, List.append_assoc]
                  refine pauseOk_cons_of _ _ rfl (pauseOk_append hfwd ?_)
                  refine pauseOk_cons_of _ _ rfl ?_
                  first
                    | simpa using ih _
                    | simp [pauseOk]
            · by_cases hs : res.status ≠ "success" <;>
                · simp only [hs, reduceIte, ite_true, ite_false,
                    ne_eq, not_not, not_true, not_false_iff,
                    List.cons_append, List.append_assoc]
                  refine pauseOk_cons_of _ _ rfl (pauseOk_append hfwd ?_)
                  refine pauseOk_cons_of _ _ rfl (pauseOk_cons_of _ _ rfl ?_)
                  first
                    | simpa using ih _
                    | simp [pauseOk]

/-- C7: in a streaming run, every pause event is terminal — after it the
engine emits nothing further, in particular no end-metadata event and no
further agent_start (first conjunct, for the whole emitted stream of any
run); and when a turn begins with next_agent equal to the pause sentinel,
the loop emits exactly one pause event carrying the accumulated context
and the collected agent history, and stops (second conjunct). -/
theorem c7_pause_terminal (maxTrys : Nat) (parse : List Char → Option Msg)
    (agents : String → Option AgentEntry)
    (oracle : List CtxEntry → String → LLMResult) (fuel : Nat)
    (query : String) (history : List CtxEntry) :
    pauseOk (stream_call maxTrys parse agents oracle fuel query history)
    ∧ ∀ st : StreamSt, st.agent_name = "wait_for_user_input" →
        ∀ f, streamLoop maxTrys parse agents oracle (f + 1) st
          = [.pause st.context st.thinking] := by
  constructor
  · unfold stream_call
    refine pauseOk_cons_of _ _ rfl ?_
    exact streamLoop_pauseOk maxTrys parse agents oracle fuel _
  · intro st hst f
    simp [streamLoop, streamStep, hst]

/-- Witness for C7 at a concrete paused state: the loop emits the pause
event with the accumulated context and history and nothing further, and
the shape property holds of a concrete full run. -/
theorem c7_witness :
    streamLoop 3 noParse oneAgent oneChunkOracle 4
        ⟨"wait_for_user_input", [userEntry "q"], 3,
         [⟨"a", "r", some "t"⟩]⟩
      = [.pause [userEntry "q"] [⟨"a", "r", some "t"⟩]]
    ∧ pauseOk (stream_call 3 noParse oneAgent oneChunkOracle 5 "q" []) := by
  constructor
  · exact (c7_pause_terminal 3 noParse oneAgent oneChunkOracle 4 "q" []).2
      ⟨"wait_for_user_input", [userEntry "q"], 3, [⟨"a", "r", some "t"⟩]⟩
      rfl 3
  · exact (c7_pause_terminal 3 noParse oneAgent oneChunkOracle 5 "q" []).1

/-! ## Claim about extraction invariance (C2) -/

/-- The split worker ignores surplus fuel: any two fuels covering the text
length agree. -/
theorem splitFuel_fuel_irrel (p : List Char) :
    ∀ n m s acc, s.length ≤ n → s.length ≤ m →
      splitFuel p n s acc = splitFuel p m s acc := by
  intro n
  induction n with
  | zero =>
      intro m s acc hn _
      have hs : s = [] := List.length_eq_zero.mp (Nat.le_zero.mp hn)
      subst hs
      cases m <;> rfl
  | succ n ih =>
      intro m s acc hn hm
      cases s with
      | nil => cases m <;> rfl
      | cons c rest =>
          cases m with
          | zero => simp at hm
          | succ m' =>
              simp only [splitFuel]
              split
              · have h1 : (rest.drop (p.length - 1)).length ≤ n := by
                  rw [List.length_drop]
                  simp only [List.length_cons] at hn
                  omega
                have h2 : (rest.drop (p.length - 1)).length ≤ m' := by
                  rw [List.length_drop]
                  simp only [List.length_cons] at hm
                  omega
                rw [ih m' _ [] h1 h2]
              · have h1 : rest.length ≤ n := by
                  simp only [List.length_cons] at hn; omega
                have h2 : rest.length ≤ m' := by
                  simp only [List.length_cons] at hm; omega
                exact ih m' rest (acc ++ [c]) h1 h2

/-- When the pattern's first character never occurs in the text, the split
returns the single piece. -/
theorem splitFuel_absent (h : Char) (pt : List Char) :
    ∀ n s acc, s.length ≤ n → h ∉ s →
      splitFuel (h :: pt) n s acc = [acc ++ s] := by
  intro n
  induction n with
  | zero =>
      intro s acc hn _
      have hs : s = [] := List.length_eq_zero.mp (Nat.le_zero.mp hn)
      subst hs; simp [splitFuel]
  | succ n ih =>
      intro s acc hn hs
      cases s with
      | nil => simp [splitFuel]
      | cons c rest =>
          have hne : ¬((h :: pt).isPrefixOf (c :: rest) = true) := by
            intro hp
            simp only [List.isPrefixOf, Bool.and_eq_true, beq_iff_eq] at hp
            exact hs (by simp [hp.1])
          simp only [splitFuel]
          rw [if_neg hne]
          rw [ih rest (acc ++ [c])
            (by simp only [List.length_cons] at hn; omega)
            (fun hm => hs (List.mem_cons_of_mem c hm))]
          simp

/-- Splitting a text that starts with the pattern emits the accumulated
piece and restarts after it. -/
theorem splitFuel_leading (h : Char) (pt : List Char) :
    ∀ n y acc, ((h :: pt) ++ y).length ≤ n →
      splitFuel (h :: pt) n ((h :: pt) ++ y) acc
        = acc :: pySplit (h :: pt) y := by
  intro n y acc hn
  cases n with
  | zero => simp at hn
  | succ n =>
      have hpre : ∀ (l t : List Char), l.isPrefixOf (l ++ t) = true := by
        intro l
        induction l with
        | nil => intro t; simp [List.isPrefixOf]
        | cons a l ih => intro t; simp [List.isPrefixOf, ih]
      have hpre2 : (h :: pt).isPrefixOf (h :: (pt ++ y)) = true := by
        simp only [← List.cons_append]
        exact hpre (h :: pt) y
      show splitFuel (h :: pt) (n + 1) (h :: (pt ++ y)) acc = _
      simp only [splitFuel]
      rw [if_pos hpre2]
      have hdrop : (pt ++ y).drop ((h :: pt).length - 1) = y := by
        simp only [List.length_cons, Nat.add_sub_cancel]
        exact List.drop_left pt y
      rw [hdrop]
      unfold pySplit
      have hyn : y.length ≤ n := by
        simp only [List.append_assoc, List.length_append,
          List.length_cons] at hn
        omega
      rw [splitFuel_fuel_irrel (h :: pt) n y.length y [] hyn (Nat.le_refl _)]

/-- pySplit on a text led by the pattern. -/
theorem pySplit_leading (h : Char) (pt y : List Char) :
    pySplit (h :: pt) ((h :: pt) ++ y) = [] :: pySplit (h :: pt) y := by
  unfold pySplit
  exact splitFuel_leading h pt ((h :: pt) ++ y).length y [] (Nat.le_refl _)

/-- pySplit on a text free of the pattern's first character. -/
theorem pySplit_absent (h : Char) (pt s : List Char) (hs : h ∉ s) :
    pySplit (h :: pt) s = [s] := by
  unfold pySplit
  simpa using splitFuel_absent h pt s.length s [] (Nat.le_refl _) hs

/-- pySplit around the first (and only boundary-clean) occurrence of the
pattern: the prefix must not contain the pattern's first character. -/
theorem pySplit_mid (h : Char) (pt : List Char) :
    ∀ x y, h ∉ x →
      pySplit (h :: pt) (x ++ (h :: pt) ++ y)
        = x :: pySplit (h :: pt) y := by
  have H : ∀ x, h ∉ x → ∀ y n acc, (x ++ (h :: pt) ++ y).length ≤ n →
      splitFuel (h :: pt) n (x ++ (h :: pt) ++ y) acc
        = (acc ++ x) :: pySplit (h :: pt) y := by
    intro x
    induction x with
    | nil =>
        intro _ y n acc hn
        simpa using splitFuel_leading h pt n y acc (by simpa using hn)
    | cons c xt ih =>
        intro hx y n acc hn
        cases n with
        | zero => simp at hn
        | succ n =>
            have hne : ¬((h :: pt).isPrefixOf
                (c :: (xt ++ (h :: pt) ++ y)) = true) := by
              intro hp
              simp only [List.isPrefixOf, Bool.and_eq_true,
                beq_iff_eq] at hp
              exact hx (by simp [hp.1])
            show splitFuel (h :: pt) (n + 1)
                (c :: (xt ++ (h :: pt) ++ y)) acc = _
            simp only [splitFuel]
            rw [if_neg hne]
            rw [ih (fun hm => hx (List.mem_cons_of_mem c hm)) y n (acc ++ [c])
              (by simp only [List.length_cons, List.append_assoc,
                    List.length_append] at hn ⊢
                  omega)]
            simp
  intro x y hx
  have := H x hx y (x ++ (h :: pt) ++ y).length [] (Nat.le_refl _)
  unfold pySplit
  simpa using this

/-- dropWhile is idempotent. -/
theorem dropWhile_dropWhile (p : Char → Bool) (l : List Char) :
    (l.dropWhile p).dropWhile p = l.dropWhile p := by
  induction l with
  | nil => rfl
  | cons a t ih =>
      by_cases hp : p a
      · simp [List.dropWhile_cons, hp, ih]
      · simp [List.dropWhile_cons, hp]

theorem ltrim_append_of_ne (x y : List Char) (hx : ltrim x ≠ []) :
    ltrim (x ++ y) = ltrim x ++ y := by
  unfold ltrim at hx ⊢
  have h1 : (x.dropWhile Char.isWhitespace).isEmpty = false := by
    simpa [List.isEmpty_iff] using hx
  rw [List.dropWhile_append, h1]
  simp

theorem ltrim_append_of_nil (x y : List Char) (hx : ltrim x = []) :
    ltrim (x ++ y) = ltrim y := by
  unfold ltrim at hx ⊢
  have h1 : (x.dropWhile Char.isWhitespace).isEmpty = true := by
    simp [List.isEmpty_iff, hx]
  rw [List.dropWhile_append, h1]
  simp

theorem rtrim_append_of_ne (x y : List Char) (hy : rtrim y ≠ []) :
    rtrim (x ++ y) = x ++ rtrim y := by
  unfold rtrim at hy ⊢
  have h0 : y.reverse.dropWhile Char.isWhitespace ≠ [] := by
    intro h0
    exact hy (by rw [h0]; rfl)
  have h1 : (y.reverse.dropWhile Char.isWhitespace).isEmpty = false := by
    simpa [List.isEmpty_iff] using h0
  rw [List.reverse_append, List.dropWhile_append, h1]
  simp

theorem rtrim_append_of_nil (x y : List Char) (hy : rtrim y = []) :
    rtrim (x ++ y) = rtrim x := by
  unfold rtrim at hy ⊢
  have h0 : y.reverse.dropWhile Char.isWhitespace = [] := by
    have := congrArg List.reverse hy
    simpa using this
  have h1 : (y.reverse.dropWhile Char.isWhitespace).isEmpty = true := by
    simp [List.isEmpty_iff, h0]
  rw [List.reverse_append, List.dropWhile_append, h1]
  simp

theorem rtrim_idem (s : List Char) : rtrim (rtrim s) = rtrim s := by
  unfold rtrim
  rw [List.reverse_reverse, dropWhile_dropWhile]

theorem mem_ltrim {c : Char} {s : List Char} (h : c ∈ ltrim s) : c ∈ s :=
  (List.dropWhile_sublist Char.isWhitespace).subset h

theorem mem_rtrim {c : Char} {s : List Char} (h : c ∈ rtrim s) : c ∈ s := by
  unfold rtrim at h
  rw [List.mem_reverse] at h
  have h2 := (List.dropWhile_sublist Char.isWhitespace).subset h
  exact List.mem_reverse.mp h2

theorem mem_pyStrip {c : Char} {s : List Char} (h : c ∈ pyStrip s) :
    c ∈ s :=
  mem_rtrim (mem_ltrim h)

theorem isPrefixOf_append_self (l t : List Char) :
    l.isPrefixOf (l ++ t) = true := by
  induction l with
  | nil => simp [List.isPrefixOf]
  | cons a l ih => simp [List.isPrefixOf, ih]

/-- pySplit of a text that is a clean prefix followed by the pattern. -/
theorem pySplit_mid_end (h : Char) (pt x : List Char) (hx : h ∉ x) :
    pySplit (h :: pt) (x ++ (h :: pt)) = [x, []] := by
  have h2 := pySplit_mid h pt x [] hx
  rw [List.append_nil] at h2
  rw [h2]
  rfl

/-- The fence-tag prefix region of the wrapped form. -/
def tagMark : List Char := "json\n<|message|>".toList

/-- The newline singleton. -/
def nlTok : List Char := "\n".toList

/-- The region between the json tag and the body. -/
def nlMark : List Char := "\n<|message|>".toList

/-- C2 amended: the streaming extraction is invariant under the Scenario 3
wrapping — fencing the body with a leading json tag and placing the
trailing marker token before it — for every body free of the backtick and
left-angle pattern characters; both sides reduce to the stripped body.
(The synchronous path is NOT invariant; see the counterexample.) -/
theorem c2_stream_invariance (b : List Char)
    (hb : ∀ c ∈ b, c ∉ "`<".toList) :
    streamExtract (wrapOracle b) = streamExtract b
    ∧ streamExtract b = pyStrip b := by
  have hfcons : fenceTok = fenceTok.headD ' ' :: fenceTok.tail := rfl
  have hmcons : markerTok = markerTok.headD ' ' :: markerTok.tail := rfl
  have hfb : fenceTok.headD ' ' ∉ b := fun hm => hb _ hm (by decide)
  have hmb : markerTok.headD ' ' ∉ b := fun hm => hb _ hm (by decide)
  have hbare : streamExtract b = pyStrip b := by
    have h1 : pySplit fenceTok (pyStrip b) = [pyStrip b] := by
      rw [hfcons]
      exact pySplit_absent _ _ _ (fun hm => hfb (mem_pyStrip hm))
    have h2 : pySplit markerTok (pyStrip b) = [pyStrip b] := by
      rw [hmcons]
      exact pySplit_absent _ _ _ (fun hm => hmb (mem_pyStrip hm))
    have hc1 : pyContains fenceTok (pyStrip b) = false := by
      unfold pyContains; rw [h1]; rfl
    have hc2 : pyContains markerTok (pyStrip b) = false := by
      unfold pyContains; rw [h2]; rfl
    simp only [streamExtract, hc1, hc2, Bool.false_eq_true, if_false]
  refine ⟨?_, hbare⟩
  have hsw : pyStrip (wrapOracle b) = wrapOracle b := by
    unfold wrapOracle pyStrip
    have hr : rtrim (("```json\n<|message|>".toList ++ b) ++ "\n```".toList)
        = ("```json\n<|message|>".toList ++ b) ++ "\n```".toList := by
      rw [rtrim_append_of_ne _ _ (by decide)]
      rw [(by decide : rtrim ("\n```".toList) = "\n```".toList)]
    rw [hr, List.append_assoc]
    rw [ltrim_append_of_ne _ _ (by decide)]
    rw [(by decide : ltrim ("```json\n<|message|>".toList)
          = "```json\n<|message|>".toList)]
  have hxw : fenceTok.headD ' ' ∉ (tagMark ++ b) ++ nlTok := by
    intro hm
    rcases List.mem_append.mp hm with hm | hm
    · rcases List.mem_append.mp hm with hm | hm
      · exact (by decide : fenceTok.headD ' ' ∉ tagMark) hm
      · exact hfb hm
    · exact (by decide : fenceTok.headD ' ' ∉ nlTok) hm
  have hsplitw : pySplit fenceTok (wrapOracle b)
      = [[], (tagMark ++ b) ++ nlTok, []] := by
    have hw : wrapOracle b
        = fenceTok ++ (((tagMark ++ b) ++ nlTok) ++ fenceTok) := by
      unfold wrapOracle
      have e1 : "```json\n<|message|>".toList = fenceTok ++ tagMark := by
        decide
      have e2 : "\n```".toList = nlTok ++ fenceTok := by decide
      rw [e1, e2]
      simp only [List.append_assoc]
    rw [hw, hfcons, pySplit_leading, pySplit_mid_end _ _ _ hxw]
  have hcw : pyContains fenceTok (wrapOracle b) = true := by
    unfold pyContains; rw [hsplitw]; rfl
  have hgetD : (pySplit fenceTok (wrapOracle b)).getD 1 []
      = (tagMark ++ b) ++ nlTok := by
    rw [hsplitw]; rfl
  by_cases hrb : rtrim b = []
  · -- all-whitespace body: both sides strip to the empty text
    have hpb : pyStrip b = [] := by
      unfold pyStrip; rw [hrb]; rfl
    have hsp : pyStrip ((tagMark ++ b) ++ nlTok) = tagMark := by
      unfold pyStrip
      rw [rtrim_append_of_nil _ _ (by decide : rtrim nlTok = [])]
      rw [rtrim_append_of_nil _ _ hrb]
      rw [(by decide : rtrim tagMark = tagMark)]
      exact (by decide : ltrim tagMark = tagMark)
    have hpre : jsonTag.isPrefixOf tagMark = true := by decide
    have hdrop : pyStrip (tagMark.drop 4) = markerTok := by decide
    have hmm2 : pySplit markerTok markerTok = [[], []] := by
      rw [hmcons]
      have h3 := pySplit_leading (markerTok.headD ' ') markerTok.tail []
      rw [List.append_nil] at h3
      rw [h3]; rfl
    have hcm : pyContains markerTok markerTok = true := by
      unfold pyContains; rw [hmm2]; rfl
    have hlast : pyStrip (lastPart (pySplit markerTok markerTok)) = [] := by
      rw [hmm2]; rfl
    rw [hbare, hpb]
    simp only [streamExtract, hsw, hcw, if_true, hgetD, hsp, hpre, hdrop,
      hcm, hlast]
  · -- body with visible content: both sides strip to pyStrip b
    have hsp : pyStrip ((tagMark ++ b) ++ nlTok) = tagMark ++ rtrim b := by
      unfold pyStrip
      rw [rtrim_append_of_nil _ _ (by decide : rtrim nlTok = [])]
      rw [rtrim_append_of_ne _ _ hrb]
      rw [ltrim_append_of_ne _ _ (by decide : ltrim tagMark ≠ [])]
      rw [(by decide : ltrim tagMark = tagMark)]
    have hpre : jsonTag.isPrefixOf (tagMark ++ rtrim b) = true := by
      rw [(by decide : tagMark = jsonTag ++ nlMark), List.append_assoc]
      exact isPrefixOf_append_self jsonTag (nlMark ++ rtrim b)
    have hdrop : (tagMark ++ rtrim b).drop 4 = nlMark ++ rtrim b := by
      rw [(by decide : tagMark = jsonTag ++ nlMark), List.append_assoc]
      rw [show (4 : Nat) = jsonTag.length from rfl]
      exact List.drop_left jsonTag (nlMark ++ rtrim b)
    have hsp2 : pyStrip (nlMark ++ rtrim b) = markerTok ++ rtrim b := by
      unfold pyStrip
      rw [rtrim_append_of_ne _ _ (by rw [rtrim_idem]; exact hrb)]
      rw [rtrim_idem]
      rw [show nlMark ++ rtrim b = nlTok ++ (markerTok ++ rtrim b) from by
        rw [(by decide : nlMark = nlTok ++ markerTok), List.append_assoc]]
      rw [ltrim_append_of_nil _ _ (by decide : ltrim nlTok = [])]
      rw [ltrim_append_of_ne _ _ (by decide : ltrim markerTok ≠ [])]
      rw [(by decide : ltrim markerTok = markerTok)]
    have hsplitm : pySplit markerTok (markerTok ++ rtrim b)
        = [[], rtrim b] := by
      rw [hmcons, pySplit_leading]
      rw [pySplit_absent _ _ _ (fun hm => hmb (mem_rtrim hm))]
    have hcm : pyContains markerTok (markerTok ++ rtrim b) = true := by
      unfold pyContains; rw [hsplitm]; rfl
    have hlast : pyStrip (lastPart (pySplit markerTok (markerTok ++ rtrim b)))
        = pyStrip b := by
      rw [hsplitm]
      show pyStrip (rtrim b) = pyStrip b
      unfold pyStrip; rw [rtrim_idem]
    rw [hbare]
    simp only [streamExtract, hsw, hcw, if_true, hgetD, hsp, hpre, hdrop,
      hsp2, hcm, hlast]

/-- The concrete structured body for the C2 counterexample. -/
def c2Body : List Char := "\x7b\"next_agent\": \"none\"\x7d".toList

/-- C2, as stated, is false: the synchronous extraction path does not
recover the bare body from the wrapped oracle output — splitting on the
marker and then taking what follows the last double backtick leaves a
single stray backtick, which no parse maps to the bare body's Message —
while the streaming path does recover it. -/
theorem c2_counterexample :
    syncExtract (wrapOracle c2Body) ≠ syncExtract c2Body
    ∧ syncExtract (wrapOracle c2Body) = "`".toList
    ∧ syncExtract c2Body = c2Body
    ∧ streamExtract (wrapOracle c2Body) = streamExtract c2Body :=
  ⟨by decide, rfl, rfl, rfl⟩

/-- Witness for the amended C2 at the concrete body. -/
theorem c2_witness :
    streamExtract (wrapOracle c2Body) = streamExtract c2Body
    ∧ streamExtract c2Body = pyStrip c2Body :=
  c2_stream_invariance c2Body (by decide)

/-- Witness for C8 at a concrete two-agent registry: the active general
capability is listed (the inactive entrance record contributes nothing,
by the same characterization). -/
theorem c8_witness :
    ("general_agent", (⟨"处理一般性问答", ["通用问题"], []⟩ : AgentInfo))
      ∈ AgentLoader.to_json
          ⟨[⟨"entrance_agent", "入口", none, ["调度"], false, "1.0.0", none⟩,
            ⟨"general_agent", "处理一般性问答", none, ["通用问题"], true,
             "1.0.0", none⟩]⟩ := by
  refine (c8_listing _ _ _).2.mpr ?_
  refine ⟨⟨"general_agent", "处理一般性问答", none, ["通用问题"], true,
    "1.0.0", none⟩, ?_, rfl, rfl, rfl⟩
  exact List.mem_cons_of_mem _ (List.mem_cons_self _ _)
